import Mathlib

/-!
Verification development for the tbtools post-processing scripts
(`merge-logs.py`, `process-devices.py`, `process-trace.py`, `util.py`).

The scripts are shallowly embedded as pure Lean functions:

* text sources are lists of lines (newline already stripped, as after
  `line.rstrip('\n')`);
* a decimal number parsed by `float` from the `\d+\.\d+` pattern is
  represented exactly as a pair `num / 10 ^ exp` of naturals (`Ts`),
  compared by cross-multiplication, exactly the order of the parsed values
  (conversion to an IEEE double is value-monotone; decimals needing more
  than double precision are collapsed by CPython but not here);
* uncaught Python exceptions become `Except PyError` results or an
  `Option PyError` component next to the output produced before the raise;
* CSV rows read by `csv.DictReader` are association lists from column name
  to a cell value (`CellVal`), CSV output rows are the lists of rendered
  cells in `fieldnames` order, as produced by `csv.DictWriter`.

Only ASCII text is modelled: the `\s`/`\d` regex classes, `int(-, 16)` and
`float` digit handling are restricted to their ASCII alphabets.
-/

namespace Tbtools

/-- Uncaught Python exception kinds reachable in these scripts. -/
inductive PyError
  | indexError
  | keyError
  | valueError
  | typeError
deriving DecidableEq

instance {ε α : Type} [DecidableEq ε] [DecidableEq α] : DecidableEq (Except ε α) := fun x y =>
  match x, y with
  | .ok a, .ok b =>
    if h : a = b then isTrue (by rw [h]) else isFalse (by intro hc; cases hc; exact h rfl)
  | .ok _, .error _ => isFalse (by intro hc; cases hc)
  | .error _, .ok _ => isFalse (by intro hc; cases hc)
  | .error a, .error b =>
    if h : a = b then isTrue (by rw [h]) else isFalse (by intro hc; cases hc; exact h rfl)

/-- ASCII alphabet of the regex class `\s` (and of Python's `str.strip`). -/
def isPySpace (c : Char) : Bool :=
  c = ' ' ∨ c = '\t' ∨ c = '\n' ∨ c = '\r' ∨ c = '\x0b' ∨ c = '\x0c'

/-- Value of a run of decimal digits, most significant first. -/
def digitsVal (ds : List Char) : ℕ :=
  ds.foldl (fun a c => 10 * a + (c.toNat - '0'.toNat)) 0

/-- Exact value of the decimal literal captured by `(\d+\.\d+)` and passed to
`float`: the number `num / 10 ^ exp`, where `exp` is the count of fractional
digits. -/
structure Ts where
  num : ℕ
  exp : ℕ
deriving DecidableEq

/-- The rational value of a parsed timestamp. -/
def Ts.val (a : Ts) : ℚ := (a.num : ℚ) / 10 ^ a.exp

/-- Comparison of two parsed timestamps as numbers (cross-multiplied). -/
def Ts.le (a b : Ts) : Prop := a.num * 10 ^ b.exp ≤ b.num * 10 ^ a.exp

/-- Strict comparison of two parsed timestamps as numbers. -/
def Ts.lt (a b : Ts) : Prop := a.num * 10 ^ b.exp < b.num * 10 ^ a.exp

/-- Equality of two parsed timestamps as numbers. -/
def Ts.eqv (a b : Ts) : Prop := a.num * 10 ^ b.exp = b.num * 10 ^ a.exp

instance : DecidableRel Ts.le := fun a b => by unfold Ts.le; infer_instance

instance : DecidableRel Ts.lt := fun a b => by unfold Ts.lt; infer_instance

instance : DecidableRel Ts.eqv := fun a b => by unfold Ts.eqv; infer_instance

theorem Ts.le_iff_val {a b : Ts} : Ts.le a b ↔ a.val ≤ b.val := by
  unfold Ts.le Ts.val
  rw [div_le_div_iff₀ (by positivity) (by positivity)]
  exact_mod_cast Iff.rfl

theorem Ts.lt_iff_val {a b : Ts} : Ts.lt a b ↔ a.val < b.val := by
  unfold Ts.lt Ts.val
  rw [div_lt_div_iff₀ (by positivity) (by positivity)]
  exact_mod_cast Iff.rfl

theorem Ts.eqv_iff_val {a b : Ts} : Ts.eqv a b ↔ a.val = b.val := by
  constructor
  · intro h
    exact le_antisymm (Ts.le_iff_val.mp h.le) (Ts.le_iff_val.mp h.ge)
  · intro h
    exact le_antisymm (Ts.le_iff_val.mpr h.le) (Ts.le_iff_val.mpr h.ge)

/-- Match of the anchored regex `^\[\s*(\d+\.\d+)\]` against the characters of
a line, returning the value `float` assigns to the captured group: an opening
bracket, any run of whitespace, a nonempty digit run, a dot, a nonempty digit
run, then a closing bracket; the rest of the line is unconstrained.
(`merge-logs.py` line 13 and lines 26-27.) -/
def matchTs (cs : List Char) : Option Ts :=
  match cs with
  | '[' :: r0 =>
    let r1 := r0.dropWhile isPySpace
    let d1 := r1.takeWhile Char.isDigit
    let r2 := r1.dropWhile Char.isDigit
    if d1.isEmpty then none else
    match r2 with
    | '.' :: r3 =>
      let d2 := r3.takeWhile Char.isDigit
      let r4 := r3.dropWhile Char.isDigit
      if d2.isEmpty then none else
      match r4 with
      | ']' :: _ => some ⟨digitsVal d1 * 10 ^ d2.length + digitsVal d2, d2.length⟩
      | _ => none
    | _ => none
  | _ => none

/-- Boundary test on one (already newline-stripped) line. -/
def matchBoundary (line : String) : Option Ts := matchTs line.data

/-- True when the line starts a new record. -/
def isBoundary (line : String) : Bool := (matchBoundary line).isSome

/-- The tuple `(float(match.group(1)), count, line)` pushed on the heap in
`merge-logs.py` line 33. -/
structure Entry where
  ts : Ts
  count : ℕ
  text : String
deriving DecidableEq

/-- Heap order on entries: the lexicographic order CPython uses on the
`(timestamp, count, text)` tuples.  The third component never takes part in a
comparison, because every pushed entry carries a distinct `count` (proved in
`readAll_counts`), so it is omitted. -/
def entryLE (a b : Entry) : Prop :=
  Ts.lt a.ts b.ts ∨ (Ts.eqv a.ts b.ts ∧ a.count ≤ b.count)

instance : DecidableRel entryLE := fun a b => by unfold entryLE; infer_instance

instance : IsTotal Entry entryLE where
  total a b := by
    unfold entryLE Ts.lt Ts.eqv
    rcases lt_trichotomy (a.ts.num * 10 ^ b.ts.exp) (b.ts.num * 10 ^ a.ts.exp) with h | h | h
    · exact Or.inl (Or.inl h)
    · rcases Nat.le_total a.count b.count with hc | hc
      · exact Or.inl (Or.inr ⟨h, hc⟩)
      · exact Or.inr (Or.inr ⟨h.symm, hc⟩)
    · exact Or.inr (Or.inl h)

instance : IsTrans Entry entryLE where
  trans a b c hab hbc := by
    have hlt : ∀ {x y : Ts}, Ts.lt x y ↔ x.val < y.val := @Ts.lt_iff_val
    have heq : ∀ {x y : Ts}, Ts.eqv x y ↔ x.val = y.val := @Ts.eqv_iff_val
    unfold entryLE at *
    rcases hab with h1 | ⟨h1, hc1⟩ <;> rcases hbc with h2 | ⟨h2, hc2⟩
    · exact Or.inl (hlt.mpr ((hlt.mp h1).trans (hlt.mp h2)))
    · exact Or.inl (hlt.mpr ((hlt.mp h1).trans_eq (heq.mp h2)))
    · exact Or.inl (hlt.mpr ((heq.mp h1).trans_lt (hlt.mp h2)))
    · exact Or.inr ⟨heq.mpr ((heq.mp h1).trans (heq.mp h2)), hc1.trans hc2⟩

/-- The per-file reading loop of `merge-logs.py` (lines 16-36): `count` is the
global sequence counter, `pending` the `entry` variable (`none` for the empty
tuple `()`), `acc` the entries pushed on the heap so far from this file.  A
boundary line pushes the pending record and starts a new one; a continuation
line with no pending record evaluates `entry[0]` on `()` and raises
`IndexError`; end of input pushes the pending record if any. -/
def readLines : ℕ → Option Entry → List Entry → List String → Except PyError (List Entry × ℕ)
  | count, pending, acc, [] => .ok (acc ++ pending.toList, count)
  | count, pending, acc, line :: rest =>
    match matchBoundary line with
    | some ts => readLines (count + 1) (some ⟨ts, count, line⟩) (acc ++ pending.toList) rest
    | none =>
      match pending with
      | none => .error .indexError
      | some e => readLines count (some ⟨e.ts, e.count, e.text ++ "\n" ++ line⟩) acc rest

/-- The outer `for file in files` loop: sources are read one after another in
argument order, sharing the single `count` counter; the resulting list is the
sequence of heap pushes in order of finalization. -/
def readAll : ℕ → List (List String) → Except PyError (List Entry × ℕ)
  | count, [] => .ok ([], count)
  | count, src :: rest =>
    match readLines count none [] src with
    | .error e => .error e
    | .ok (es, c) =>
      match readAll c rest with
      | .error e => .error e
      | .ok (esr, cr) => .ok (es ++ esr, cr)

/-- The drain loop `while heap: print(heappop(heap)[2])`.  All pushes precede
all pops, and `heappop` always removes a smallest element, so the printed
sequence is the pushed multiset sorted by the heap order; it is modelled by a
sort with respect to `entryLE`. -/
def drain (es : List Entry) : List Entry := List.insertionSort entryLE es

/-- Whole-program behaviour of `merge_logs`: the printed records in order, or
the uncaught exception. -/
def merge_logs (sources : List (List String)) : Except PyError (List String) :=
  match readAll 0 sources with
  | .error e => .error e
  | .ok (es, _) => .ok ((drain es).map Entry.text)

-- sanity checks
example : isBoundary "[1.0] hello" = true := by decide
example : isBoundary "[ 12.50]x" = true := by decide
example : isBoundary "[1] hello" = false := by decide
example : isBoundary "cont" = false := by decide
example : matchBoundary "[1.25] x" = some ⟨125, 2⟩ := by decide

/-- Total number of boundary-matching lines over all sources; each one makes
`merge-logs.py` allocate exactly one `(timestamp, count, line)` entry. -/
def totalBoundaries (sources : List (List String)) : ℕ :=
  (sources.map (fun s => (s.filter isBoundary).length)).sum

theorem readLines_counts (ls : List String) :
    ∀ (count : ℕ) (pending : Option Entry) (acc es : List Entry) (c : ℕ),
      readLines count pending acc ls = .ok (es, c) →
      ((acc ++ pending.toList).map Entry.count).Pairwise (· < ·) →
      (∀ k ∈ (acc ++ pending.toList).map Entry.count, k < count) →
      (es.map Entry.count).Pairwise (· < ·) ∧
        (∀ k ∈ es.map Entry.count,
          k < c ∧ (k ∈ (acc ++ pending.toList).map Entry.count ∨ count ≤ k)) ∧
        count ≤ c := by
  induction ls with
  | nil =>
    intro count pending acc es c h hpw hbd
    simp only [readLines, Except.ok.injEq, Prod.mk.injEq] at h
    obtain ⟨rfl, rfl⟩ := h
    exact ⟨hpw, fun k hk => ⟨hbd k hk, Or.inl hk⟩, le_refl _⟩
  | cons line rest ih =>
    intro count pending acc es c h hpw hbd
    cases hb : matchBoundary line with
    | some ts =>
      simp only [readLines, hb] at h
      have hpw' :
          (((acc ++ pending.toList) ++ [(⟨ts, count, line⟩ : Entry)]).map Entry.count).Pairwise
            (· < ·) := by
        rw [List.map_append, List.pairwise_append]
        refine ⟨hpw, List.pairwise_singleton _ _, ?_⟩
        intro a ha b hb'
        simp only [List.map_cons, List.map_nil, List.mem_singleton] at hb'
        subst hb'
        exact hbd a ha
      have hbd' :
          ∀ k ∈ ((acc ++ pending.toList) ++ [(⟨ts, count, line⟩ : Entry)]).map Entry.count,
            k < count + 1 := by
        intro k hk
        rw [List.map_append, List.mem_append] at hk
        rcases hk with hk | hk
        · exact (hbd k hk).trans (Nat.lt_succ_self _)
        · simp only [List.map_cons, List.map_nil, List.mem_singleton] at hk
          subst hk
          exact Nat.lt_succ_self _
      obtain ⟨h1, h2, h3⟩ := ih (count + 1) (some ⟨ts, count, line⟩) (acc ++ pending.toList)
        es c h (by simpa using hpw') (by simpa using hbd')
      refine ⟨h1, ?_, (Nat.le_succ _).trans h3⟩
      intro k hk
      obtain ⟨hkc, hmem⟩ := h2 k hk
      refine ⟨hkc, ?_⟩
      rcases hmem with hmem | hge
      · simp only [Option.toList_some, List.map_append, List.mem_append, List.map_cons,
          List.map_nil, List.mem_singleton] at hmem
        rcases hmem with hmem | rfl
        · exact Or.inl (by simpa using hmem)
        · exact Or.inr (le_refl _)
      · exact Or.inr ((Nat.le_succ _).trans hge)
    | none =>
      cases pending with
      | none => simp [readLines, hb] at h
      | some e =>
        simp only [readLines, hb] at h
        obtain ⟨h1, h2, h3⟩ := ih count (some ⟨e.ts, e.count, e.text ++ "\n" ++ line⟩) acc
          es c h (by simpa using hpw) (by simpa using hbd)
        refine ⟨h1, ?_, h3⟩
        intro k hk
        obtain ⟨hkc, hmem⟩ := h2 k hk
        refine ⟨hkc, ?_⟩
        rcases hmem with hmem | hge
        · exact Or.inl (by simpa using hmem)
        · exact Or.inr hge

theorem readAll_counts (sources : List (List String)) :
    ∀ (count : ℕ) (es : List Entry) (c : ℕ),
      readAll count sources = .ok (es, c) →
      (es.map Entry.count).Pairwise (· < ·) ∧
        (∀ k ∈ es.map Entry.count, count ≤ k ∧ k < c) ∧ count ≤ c := by
  induction sources with
  | nil =>
    intro count es c h
    simp only [readAll, Except.ok.injEq, Prod.mk.injEq] at h
    obtain ⟨rfl, rfl⟩ := h
    exact ⟨List.Pairwise.nil, by simp, le_refl _⟩
  | cons src rest ih =>
    intro count es c h
    cases hr : readLines count none [] src with
    | error e => simp [readAll, hr] at h
    | ok p =>
      obtain ⟨es1, c1⟩ := p
      cases hra : readAll c1 rest with
      | error e => simp [readAll, hr, hra] at h
      | ok q =>
        obtain ⟨es2, c2⟩ := q
        simp only [readAll, hr, hra, Except.ok.injEq, Prod.mk.injEq] at h
        obtain ⟨rfl, rfl⟩ := h
        obtain ⟨p1, p2, p3⟩ := readLines_counts src count none [] es1 c1 hr (by simp) (by simp)
        obtain ⟨q1, q2, q3⟩ := ih c1 es2 c2 hra
        have hlow1 : ∀ k ∈ es1.map Entry.count, count ≤ k ∧ k < c1 := by
          intro k hk
          obtain ⟨hkc, hmem⟩ := p2 k hk
          refine ⟨?_, hkc⟩
          rcases hmem with hmem | hge
          · simp at hmem
          · exact hge
        refine ⟨?_, ?_, p3.trans q3⟩
        · rw [List.map_append, List.pairwise_append]
          refine ⟨p1, q1, ?_⟩
          intro a ha b hb
          exact ((hlow1 a ha).2).trans_le ((q2 b hb).1)
        · intro k hk
          rw [List.map_append, List.mem_append] at hk
          rcases hk with hk | hk
          · exact ⟨(hlow1 k hk).1, (hlow1 k hk).2.trans_le q3⟩
          · exact ⟨p3.trans (q2 k hk).1, (q2 k hk).2⟩

theorem readLines_length (ls : List String) :
    ∀ (count : ℕ) (pending : Option Entry) (acc es : List Entry) (c : ℕ),
      readLines count pending acc ls = .ok (es, c) →
      es.length = acc.length + pending.toList.length + (ls.filter isBoundary).length := by
  induction ls with
  | nil =>
    intro count pending acc es c h
    simp only [readLines, Except.ok.injEq, Prod.mk.injEq] at h
    obtain ⟨rfl, rfl⟩ := h
    simp
  | cons line rest ih =>
    intro count pending acc es c h
    cases hb : matchBoundary line with
    | some ts =>
      simp only [readLines, hb] at h
      have := ih (count + 1) (some ⟨ts, count, line⟩) (acc ++ pending.toList) es c h
      have hbl : isBoundary line = true := by
        unfold isBoundary
        rw [hb]
        rfl
      have hf : List.filter isBoundary (line :: rest) = line :: List.filter isBoundary rest := by
        simp [List.filter_cons, hbl]
      rw [hf]
      simp only [List.length_append, Option.toList_some, List.length_cons, List.length_nil] at this ⊢
      omega
    | none =>
      cases pending with
      | none => simp [readLines, hb] at h
      | some e =>
        simp only [readLines, hb] at h
        have := ih count (some ⟨e.ts, e.count, e.text ++ "\n" ++ line⟩) acc es c h
        have hbl : isBoundary line = false := by
          unfold isBoundary
          rw [hb]
          rfl
        rw [List.filter_cons, hbl]
        simpa using this

theorem readAll_length (sources : List (List String)) :
    ∀ (count : ℕ) (es : List Entry) (c : ℕ),
      readAll count sources = .ok (es, c) → es.length = totalBoundaries sources := by
  induction sources with
  | nil =>
    intro count es c h
    simp only [readAll, Except.ok.injEq, Prod.mk.injEq] at h
    obtain ⟨rfl, rfl⟩ := h
    rfl
  | cons src rest ih =>
    intro count es c h
    cases hr : readLines count none [] src with
    | error e => simp [readAll, hr] at h
    | ok p =>
      obtain ⟨es1, c1⟩ := p
      cases hra : readAll c1 rest with
      | error e => simp [readAll, hr, hra] at h
      | ok q =>
        obtain ⟨es2, c2⟩ := q
        simp only [readAll, hr, hra, Except.ok.injEq, Prod.mk.injEq] at h
        obtain ⟨rfl, rfl⟩ := h
        have h1 := readLines_length src count none [] es1 c1 hr
        have h2 := ih c1 es2 c2 hra
        simp only [List.length_nil, Option.toList_none, List.length_append] at h1
        rw [List.length_append, h1, h2]
        unfold totalBoundaries
        simp [Nat.add_comm]

theorem readLines_error (ls : List String) :
    ∀ (count : ℕ) (pending : Option Entry) (acc : List Entry) (e : PyError),
      readLines count pending acc ls = .error e → e = .indexError := by
  induction ls with
  | nil =>
    intro count pending acc e h
    simp [readLines] at h
  | cons line rest ih =>
    intro count pending acc e h
    cases hb : matchBoundary line with
    | some ts =>
      simp only [readLines, hb] at h
      exact ih _ _ _ _ h
    | none =>
      cases pending with
      | none =>
        simp only [readLines, hb, Except.error.injEq] at h
        exact h.symm
      | some p =>
        simp only [readLines, hb] at h
        exact ih _ _ _ _ h

theorem readAll_error (sources : List (List String)) :
    ∀ (count : ℕ) (e : PyError),
      readAll count sources = .error e → e = .indexError := by
  induction sources with
  | nil =>
    intro count e h
    simp [readAll] at h
  | cons src rest ih =>
    intro count e h
    cases hr : readLines count none [] src with
    | error e1 =>
      simp only [readAll, hr, Except.error.injEq] at h
      subst h
      exact readLines_error src count none [] e1 hr
    | ok p =>
      obtain ⟨es1, c1⟩ := p
      cases hra : readAll c1 rest with
      | error e2 =>
        simp only [readAll, hr, hra, Except.error.injEq] at h
        subst h
        exact ih c1 e2 hra
      | ok q =>
        obtain ⟨es2, c2⟩ := q
        simp [readAll, hr, hra] at h

theorem readAll_leading_cont (sources : List (List String)) :
    ∀ count : ℕ,
      (∃ src ∈ sources, ∃ l ls, src = l :: ls ∧ isBoundary l = false) →
      readAll count sources = .error .indexError := by
  induction sources with
  | nil =>
    intro count h
    obtain ⟨src, hmem, _⟩ := h
    exact absurd hmem (List.not_mem_nil src)
  | cons s rest ih =>
    intro count h
    obtain ⟨src, hmem, l, ls, rfl, hbl⟩ := h
    rcases List.mem_cons.mp hmem with heq | hmem'
    · subst heq
      have hnone : matchBoundary l = none := by
        unfold isBoundary at hbl
        exact Option.not_isSome_iff_eq_none.mp (by simp [hbl])
      have hrl : readLines count none [] (l :: ls) = .error .indexError := by
        simp [readLines, hnone]
      simp [readAll, hrl]
    · cases hr : readLines count none [] s with
      | error e =>
        have he : e = .indexError := readLines_error s count none [] e hr
        subst he
        simp [readAll, hr]
      | ok p =>
        obtain ⟨es1, c1⟩ := p
        have hrest := ih c1 ⟨l :: ls, hmem', l, ls, rfl, hbl⟩
        simp [readAll, hr, hrest]

/-- C1: for every set of input sources, whenever the reading pass completes
(finalizing the list `es` of records, in source-argument order then in-file
top-to-bottom order, each carrying the strictly increasing sequence counter),
the printed output is exactly the drained heap, it is sorted non-decreasing by
the parsed timestamp value, and records with equal timestamp value appear in
strictly increasing counter order, i.e. in their relative finalization
order. -/
theorem merge_logs_sorted_stable (sources : List (List String)) (es : List Entry) (c : ℕ)
    (h : readAll 0 sources = .ok (es, c)) :
    merge_logs sources = .ok ((drain es).map Entry.text) ∧
      (drain es).Pairwise
        (fun a b => a.ts.val ≤ b.ts.val ∧ (a.ts.val = b.ts.val → a.count < b.count)) ∧
      es.Pairwise (fun a b => a.count < b.count) := by
  obtain ⟨hpw, _, _⟩ := readAll_counts sources 0 es c h
  have hcounts : es.Pairwise (fun a b => a.count < b.count) := List.pairwise_map.mp hpw
  refine ⟨?_, ?_, hcounts⟩
  · simp [merge_logs, h]
  · have hsorted : (drain es).Pairwise entryLE := List.sorted_insertionSort entryLE es
    have hperm : (drain es).Perm es := List.perm_insertionSort entryLE es
    have hnd : ((drain es).map Entry.count).Nodup := by
      rw [List.Perm.nodup_iff (hperm.map Entry.count)]
      exact hpw.imp Nat.ne_of_lt
    have hne : (drain es).Pairwise (fun a b => a.count ≠ b.count) := List.pairwise_map.mp hnd
    refine (hsorted.and hne).imp ?_
    rintro a b ⟨hle, hnecnt⟩
    unfold entryLE at hle
    rcases hle with hlt | ⟨heqv, hcle⟩
    · have := Ts.lt_iff_val.mp hlt
      exact ⟨this.le, fun heq => absurd heq this.ne⟩
    · exact ⟨(Ts.eqv_iff_val.mp heqv).le, fun _ => lt_of_le_of_ne hcle hnecnt⟩

/-- Witness for C1 on a concrete input with equal timestamps across files. -/
theorem merge_logs_sorted_stable_witness :
    readAll 0 [["[1.0] a", "[1.0] b"], ["[1.0] c"]] =
        .ok ([⟨⟨10, 1⟩, 0, "[1.0] a"⟩, ⟨⟨10, 1⟩, 1, "[1.0] b"⟩, ⟨⟨10, 1⟩, 2, "[1.0] c"⟩], 3) ∧
      (merge_logs [["[1.0] a", "[1.0] b"], ["[1.0] c"]] =
          .ok ((drain [⟨⟨10, 1⟩, 0, "[1.0] a"⟩, ⟨⟨10, 1⟩, 1, "[1.0] b"⟩,
            ⟨⟨10, 1⟩, 2, "[1.0] c"⟩]).map Entry.text) ∧
        (drain [⟨⟨10, 1⟩, 0, "[1.0] a"⟩, ⟨⟨10, 1⟩, 1, "[1.0] b"⟩,
            ⟨⟨10, 1⟩, 2, "[1.0] c"⟩]).Pairwise
          (fun a b => a.ts.val ≤ b.ts.val ∧ (a.ts.val = b.ts.val → a.count < b.count)) ∧
        ([⟨⟨10, 1⟩, 0, "[1.0] a"⟩, ⟨⟨10, 1⟩, 1, "[1.0] b"⟩,
            ⟨⟨10, 1⟩, 2, "[1.0] c"⟩] : List Entry).Pairwise
          (fun a b => a.count < b.count)) :=
  ⟨by decide, merge_logs_sorted_stable _ _ 3 (by decide)⟩

/-- C2 (amended): whenever `merge_logs` terminates without an exception, the
number of printed records equals the total number of boundary-matching lines
over all sources. -/
theorem merge_logs_record_count (sources : List (List String)) (out : List String)
    (h : merge_logs sources = .ok out) : out.length = totalBoundaries sources := by
  cases hr : readAll 0 sources with
  | error e => simp [merge_logs, hr] at h
  | ok p =>
    obtain ⟨es, c⟩ := p
    simp only [merge_logs, hr, Except.ok.injEq] at h
    subst h
    rw [List.length_map]
    unfold drain
    rw [(List.perm_insertionSort entryLE es).length_eq]
    exact readAll_length sources 0 es c hr

/-- Witness for C2 on a concrete input: one boundary line plus a continuation
line in the first source, an empty second source. -/
theorem merge_logs_record_count_witness :
    merge_logs [["[1.5] x", "tail"], []] = .ok ["[1.5] x\ntail"] ∧
      (["[1.5] x\ntail"] : List String).length = totalBoundaries [["[1.5] x", "tail"], []] :=
  ⟨by decide, merge_logs_record_count _ _ (by decide)⟩

/-- C2 counterexample: a non-empty source with no boundary-matching line does
not contribute zero records — the whole run aborts with `IndexError` and
produces no output at all (the claim, as stated for all inputs, fails). -/
theorem merge_logs_record_count_cex :
    merge_logs [["stray"]] = .error .indexError := by decide

/-- C3 (amended): a source that starts with a continuation line (a line before
any boundary line) makes `merge_logs` raise `IndexError` — the leading lines
are not silently dropped. -/
theorem merge_logs_leading_cont (sources : List (List String))
    (h : ∃ src ∈ sources, ∃ l ls, src = l :: ls ∧ isBoundary l = false) :
    merge_logs sources = .error .indexError := by
  unfold merge_logs
  rw [readAll_leading_cont sources 0 h]

/-- Witness for C3 on a concrete input. -/
theorem merge_logs_leading_cont_witness :
    merge_logs [["[9.9] ok"], ["bad", "[1.0] y"]] = .error .indexError :=
  merge_logs_leading_cont _
    ⟨["bad", "[1.0] y"], by decide, "bad", ["[1.0] y"], rfl, by decide⟩

/-- C3 counterexample: the claim as stated is false — on a source whose first
line is a continuation line the program does not drop it and continue, it
raises `IndexError` before printing anything. -/
theorem merge_logs_leading_cont_cex :
    merge_logs [["cont", "[1.0] x"]] ≠ .ok ["[1.0] x"] := by decide

/-- C9 (amended): on file A `[1.0] hello / cont / [3.0] world` and file B
`[2.0] foo`, the output is the three full record texts, boundary line
included, in timestamp order. -/
theorem merge_logs_example :
    merge_logs [["[1.0] hello", "cont", "[3.0] world"], ["[2.0] foo"]] =
      .ok ["[1.0] hello\ncont", "[2.0] foo", "[3.0] world"] := by decide

/-- C9 counterexample: the claimed output texts `hello\ncont`, `foo`, `world`
are wrong — the records keep their bracketed timestamp prefixes, because the
heap entry stores the whole boundary line. -/
theorem merge_logs_example_cex :
    merge_logs [["[1.0] hello", "cont", "[3.0] world"], ["[2.0] foo"]] ≠
      .ok ["hello\ncont", "foo", "world"] := by decide

/-- Value held in one cell of a `csv.DictReader` row: a string from the file,
an integer after `util.convert_int` replaced it, or Python `None` (the
`DictReader` `restval` for short rows). -/
inductive CellVal
  | str (v : String)
  | int (v : ℤ)
  | null
deriving DecidableEq

/-- Python truthiness of a cell value: empty string, zero and `None` are
falsy. -/
def isTruthy : CellVal → Bool
  | .str v => !v.isEmpty
  | .int n => n != 0
  | .null => false

/-- A CSV row as read by `csv.DictReader`: an association list from column
name to cell value (keys unique, first binding wins on lookup). -/
def Row : Type := List (String × CellVal)

instance : DecidableEq Row := by unfold Row; infer_instance

/-- Assignment `fields[name] = v` for a key already present: replaces the
value in place (the conversion helpers only ever assign a key they have just
read). -/
def updateA (fields : Row) (name : String) (v : CellVal) : Row :=
  fields.map (fun p => if p.1 = name then (name, v) else p)

/-- Numeric value of one hexadecimal digit, or `none`. -/
def hexDigitVal (c : Char) : Option ℕ :=
  if c.isDigit then some (c.toNat - '0'.toNat)
  else if 'a' ≤ c ∧ c ≤ 'f' then some (c.toNat - 'a'.toNat + 10)
  else if 'A' ≤ c ∧ c ≤ 'F' then some (c.toNat - 'A'.toNat + 10)
  else none

/-- Digit-run automaton of CPython's `int(s, 16)` literal grammar: a nonempty
run of hex digits in which single underscores may stand between digits
(`prevDigit` records whether the previous character was a digit, so an
underscore may follow only a digit and must be followed by one). -/
def hexCore : List Char → ℕ → Bool → Option ℕ
  | [], acc, prevDigit => if prevDigit then some acc else none
  | c :: rest, acc, prevDigit =>
    if c = '_' then
      if prevDigit then hexCore rest acc false else none
    else
      match hexDigitVal c with
      | some d => hexCore rest (16 * acc + d) true
      | none => none

/-- CPython `int(s, 16)`: optional surrounding whitespace, optional sign,
optional `0x`/`0X` prefix (which may be followed by one underscore), then a
digit run per `hexCore`; anything else raises `ValueError` (`none` here). -/
def pyIntHex (s : String) : Option ℤ :=
  let cs := s.data.dropWhile isPySpace
  let cs := (cs.reverse.dropWhile isPySpace).reverse
  let (sign, cs1) : ℤ × List Char :=
    match cs with
    | '-' :: r => (-1, r)
    | '+' :: r => (1, r)
    | r => (1, r)
  let cs2 :=
    match cs1 with
    | '0' :: x :: r =>
      if x = 'x' ∨ x = 'X' then
        match r with
        | '_' :: r2 => r2
        | _ => r
      else '0' :: x :: r
    | r => r
  (hexCore cs2 0 false).map (fun n => sign * n)

/-- Line 4-7 of `util.py`:

    def convert_int(fields, name):
        tmp = fields[name]
        if tmp:
            fields[name] = int(tmp, 16)

An absent key raises `KeyError` at `fields[name]`; a falsy value (empty
string, `None`) leaves the row unchanged; otherwise the value is replaced by
`int(tmp, 16)`, whose failure on malformed text is `ValueError` (calling it
on a non-string with an explicit base would be `TypeError`; the `null` branch
is unreachable because `None` is falsy). -/
def convert_int (fields : Row) (name : String) : Except PyError Row :=
  match List.lookup name fields with
  | none => .error .keyError
  | some tmp =>
    if isTruthy tmp then
      match tmp with
      | .str s =>
        match pyIntHex s with
        | some n => .ok (updateA fields name (.int n))
        | none => .error .valueError
      | .int _ => .error .typeError
      | .null => .error .typeError
    else .ok fields

/-- Rendering of a cell by `csv.writer`: strings verbatim, integers via
`str`, `None` as the empty string. -/
def cellStr : CellVal → String
  | .str v => v
  | .int n => toString n
  | .null => ""

/-- A `csv.DictWriter.writerow` with the default `extrasaction='raise'` and
`restval=''`: raise `ValueError` when the row has a key outside `fieldnames`,
else emit the cells in `fieldnames` order, absent keys as empty. -/
def writeRowDict (fieldnames : List String) (row : Row) : Except PyError (List String) :=
  if row.all (fun p => fieldnames.contains p.1) then
    .ok (fieldnames.map (fun k =>
      match List.lookup k row with
      | some v => cellStr v
      | none => ""))
  else .error .valueError

/-- The fixed output schema of `process-devices.py` (lines 14-24). -/
def deviceFieldNames : List String :=
  ["domain", "route", "adapter", "index", "vendor", "device",
   "vendor_name", "device_name", "type"]

/-- The three per-row conversions of `process-devices.py` (lines 28-30). -/
def devConvert (row : Row) : Except PyError Row :=
  match convert_int row "route" with
  | .error e => .error e
  | .ok r1 =>
    match convert_int r1 "vendor" with
    | .error e => .error e
    | .ok r2 => convert_int r2 "device"

/-- The `for row in reader` loop of `process_devices`: each row is converted
then written; an exception aborts the loop, keeping the lines already
written. -/
def devLoop : List Row → List (List String) × Option PyError
  | [] => ([], none)
  | row :: rest =>
    match devConvert row with
    | .error e => ([], some e)
    | .ok row' =>
      match writeRowDict deviceFieldNames row' with
      | .error e => ([], some e)
      | .ok cells => (cells :: (devLoop rest).1, (devLoop rest).2)

/-- Whole-file behaviour of `process_devices` on the parsed input rows: the
lines of the output CSV (header first), plus the uncaught exception if the
run aborted after writing them. -/
def process_devices (rows : List Row) : List (List String) × Option PyError :=
  (deviceFieldNames :: (devLoop rows).1, (devLoop rows).2)

-- sanity checks against CPython: int('1a',16)=26, int('8086',16)=32902,
-- int('10d3',16)=4307, int('-0x_ff',16)=-255, int(' 1a ',16)=26,
-- int('1__2',16)/int('0x',16)/int('',16) raise ValueError
example : pyIntHex "1a" = some 26 := by decide
example : pyIntHex "8086" = some 32902 := by decide
example : pyIntHex "10d3" = some 4307 := by decide
example : pyIntHex "-0x_ff" = some (-255) := by decide
example : pyIntHex " 1a " = some 26 := by decide
example : pyIntHex "1__2" = none := by decide
example : pyIntHex "0x" = none := by decide
example : pyIntHex "" = none := by decide
example : pyIntHex "xyz" = none := by decide

/-- C7 (amended): `convert_int` raises `KeyError` when the field is absent
from the row (it is not a no-op); it is a no-op on a falsy (empty or `None`)
value; it replaces a non-empty well-formed hexadecimal text by its integer
value; and it raises `ValueError` on non-empty malformed text. -/
theorem convert_int_spec (row : Row) (name : String) :
    (List.lookup name row = none → convert_int row name = .error .keyError) ∧
      (∀ v, List.lookup name row = some v → isTruthy v = false →
        convert_int row name = .ok row) ∧
      (∀ s n, List.lookup name row = some (.str s) → s ≠ "" → pyIntHex s = some n →
        convert_int row name = .ok (updateA row name (.int n))) ∧
      (∀ s, List.lookup name row = some (.str s) → s ≠ "" → pyIntHex s = none →
        convert_int row name = .error .valueError) := by
  refine ⟨?_, ?_, ?_, ?_⟩
  · intro h
    simp [convert_int, h]
  · intro v hv hf
    simp [convert_int, hv, hf]
  · intro s n hv hne hx
    have hf : isTruthy (.str s) = true := by
      cases hie : s.isEmpty with
      | true => exact absurd ((String.isEmpty_iff s).mp hie) hne
      | false => simp [isTruthy, hie]
    simp [convert_int, hv, hf, hx]
  · intro s hv hne hx
    have hf : isTruthy (.str s) = true := by
      cases hie : s.isEmpty with
      | true => exact absurd ((String.isEmpty_iff s).mp hie) hne
      | false => simp [isTruthy, hie]
    simp [convert_int, hv, hf, hx]

/-- Witness for C7: conversion of a present, non-empty hex field. -/
theorem convert_int_spec_witness :
    convert_int [("route", CellVal.str "1a"), ("vendor", CellVal.str "")] "route" =
      .ok (updateA [("route", CellVal.str "1a"), ("vendor", CellVal.str "")] "route"
        (.int 26)) :=
  (convert_int_spec [("route", CellVal.str "1a"), ("vendor", CellVal.str "")] "route").2.2.1
    "1a" 26 (by decide) (by decide) (by decide)

/-- C7 counterexample: on a row without the named field, `convert_int` is not
a no-op — `fields[name]` raises `KeyError`. -/
theorem convert_int_absent_cex :
    convert_int [("vendor", CellVal.str "8086")] "route" = .error .keyError ∧
      convert_int [("vendor", CellVal.str "8086")] "route" ≠
        .ok [("vendor", CellVal.str "8086")] := by decide

/-- The concrete row of the C8 example: `route=1a, vendor=8086, device=10d3`
with the remaining schema columns filled in. -/
def c8row : Row :=
  [("domain", .str "0"), ("route", .str "1a"), ("adapter", .str "1"), ("index", .str "0"),
   ("vendor", .str "8086"), ("device", .str "10d3"), ("vendor_name", .str "Intel"),
   ("device_name", .str "DSL6540"), ("type", .str "device")]

/-- C8 (amended): the output row is `route=26, vendor=32902, device=4307` —
each value the base-16 conversion of the input text (`int("8086", 16) =
32902, not 34342`). -/
theorem process_devices_hex_example :
    process_devices [c8row] =
      ([deviceFieldNames,
        ["0", "26", "1", "0", "32902", "4307", "Intel", "DSL6540", "device"]], none) := by
  decide

/-- C8 counterexample: the claimed output row with `vendor=34342` is not what
the program writes. -/
theorem process_devices_hex_example_cex :
    (process_devices [c8row]).1 ≠
      [deviceFieldNames,
       ["0", "26", "1", "0", "34342", "4307", "Intel", "DSL6540", "device"]] := by
  decide

/-- C6 (amended): the output header is always exactly the fixed 9-column
schema.  A converted row all of whose keys lie in the schema is written with
the schema columns it lacks rendered empty; a row with a key outside the
schema makes `DictWriter.writerow` (default `extrasaction='raise'`) raise
`ValueError` instead of ignoring the extra column; and a row lacking the
`route` column raises `KeyError` in `convert_int` before any write. -/
theorem process_devices_schema :
    (∀ rows, (process_devices rows).1.head? = some deviceFieldNames) ∧
      (∀ row row', devConvert row = .ok row' →
        row'.all (fun p => deviceFieldNames.contains p.1) = true →
        process_devices [row] =
          ([deviceFieldNames,
            deviceFieldNames.map (fun k =>
              match List.lookup k row' with
              | some v => cellStr v
              | none => "")], none)) ∧
      (∀ row row', devConvert row = .ok row' →
        row'.all (fun p => deviceFieldNames.contains p.1) = false →
        process_devices [row] = ([deviceFieldNames], some .valueError)) ∧
      (∀ row, List.lookup "route" row = none →
        process_devices [row] = ([deviceFieldNames], some .keyError)) := by
  refine ⟨?_, ?_, ?_, ?_⟩
  · intro rows
    simp [process_devices]
  · intro row row' hconv hall
    have hw : writeRowDict deviceFieldNames row' =
        .ok (deviceFieldNames.map (fun k =>
          match List.lookup k row' with
          | some v => cellStr v
          | none => "")) := by
      unfold writeRowDict
      rw [if_pos hall]
    simp [process_devices, devLoop, hconv, hw]
  · intro row row' hconv hall
    have hw : writeRowDict deviceFieldNames row' = .error .valueError := by
      unfold writeRowDict
      rw [if_neg (by rw [hall]; exact Bool.false_ne_true)]
    simp [process_devices, devLoop, hconv, hw]
  · intro row hmiss
    have hc : convert_int row "route" = .error .keyError := by
      simp [convert_int, hmiss]
    simp [process_devices, devLoop, devConvert, hc]

/-- Witness for C6: a row with only the three converted columns is written
with the six other schema columns empty. -/
theorem process_devices_schema_witness :
    process_devices [[("route", CellVal.str "1"), ("vendor", CellVal.str "2"),
        ("device", CellVal.str "3")]] =
      ([deviceFieldNames, ["", "1", "", "", "2", "3", "", "", ""]], none) :=
  process_devices_schema.2.1
    [("route", CellVal.str "1"), ("vendor", CellVal.str "2"), ("device", CellVal.str "3")]
    [("route", CellVal.int 1), ("vendor", CellVal.int 2), ("device", CellVal.int 3)]
    (by decide) (by decide)

/-- C6 counterexample: an input column outside the schema is not ignored —
the row write raises `ValueError` and the data row is absent from the
output. -/
theorem process_devices_extra_column_cex :
    (process_devices [[("route", CellVal.str "1a"), ("vendor", CellVal.str "8086"),
        ("device", CellVal.str "10d3"), ("foo", CellVal.str "x")]]).2 ≠ none ∧
      process_devices [[("route", CellVal.str "1a"), ("vendor", CellVal.str "8086"),
        ("device", CellVal.str "10d3"), ("foo", CellVal.str "x")]] =
        ([deviceFieldNames], some .valueError) := by decide

/-- Exact value of a decimal literal accepted by CPython's `float`:
`(-1)^neg * mant / 10^frac * 10^exp10`, where `mant` holds all digits
(integer and fractional parts concatenated), `frac` the count of fractional
digits and `exp10` the explicit exponent.  `float` maps it to the nearest
IEEE double; the rendering consumers only ever apply a function of the value,
so they are parameterized over a function of this exact form. -/
structure PFloat where
  neg : Bool
  mant : ℕ
  frac : ℕ
  exp10 : ℤ
deriving DecidableEq

/-- Rational value of a parsed float literal. -/
def PFloat.val (p : PFloat) : ℚ :=
  (if p.neg then -1 else 1) * ((p.mant : ℚ) / 10 ^ p.frac) *
    (if 0 ≤ p.exp10 then (10 : ℚ) ^ p.exp10.toNat else 1 / 10 ^ (-p.exp10).toNat)

/-- Valid digit run of the CPython numeric literal grammar: nonempty, starts
and ends with a digit, single underscores only between digits. -/
def digitRunOk : List Char → Bool
  | [] => false
  | [c] => c.isDigit
  | c :: '_' :: r2 => c.isDigit && digitRunOk r2
  | c :: rest => c.isDigit && digitRunOk rest

/-- Digits of a run with the underscores removed. -/
def runDigits (cs : List Char) : List Char := cs.filter (fun c => c ≠ '_')

/-- Optional exponent suffix `e`/`E`, optional sign, digit run; an empty
remainder means exponent 0; anything else is a malformed literal. -/
def parseExp (cs : List Char) : Option ℤ :=
  match cs with
  | [] => some 0
  | e :: r =>
    if e = 'e' ∨ e = 'E' then
      let (eneg, r1) : Bool × List Char :=
        match r with
        | '-' :: r2 => (true, r2)
        | '+' :: r2 => (false, r2)
        | r2 => (false, r2)
      if digitRunOk r1 then
        some (if eneg then -(digitsVal (runDigits r1) : ℤ) else (digitsVal (runDigits r1) : ℤ))
      else none
    else none

/-- CPython `float(s)` on finite decimal literals: optional whitespace and
sign, then `digits [. digits] [exp]` or `. digits [exp]`, with underscores per
`digitRunOk`.  `inf`/`nan` spellings are not modelled (they would make the
later `fromtimestamp` raise anyway); malformed text is `none` (ValueError). -/
def parseFloat (s : String) : Option PFloat :=
  let cs := s.data.dropWhile isPySpace
  let cs := (cs.reverse.dropWhile isPySpace).reverse
  let (neg, cs1) : Bool × List Char :=
    match cs with
    | '-' :: r => (true, r)
    | '+' :: r => (false, r)
    | r => (false, r)
  let ip := cs1.takeWhile (fun c => c.isDigit || c = '_')
  let r1 := cs1.drop ip.length
  match r1 with
  | '.' :: r2 =>
    let fp := r2.takeWhile (fun c => c.isDigit || c = '_')
    let r3 := r2.drop fp.length
    if ip.isEmpty && fp.isEmpty then none
    else if !ip.isEmpty && !digitRunOk ip then none
    else if !fp.isEmpty && !digitRunOk fp then none
    else
      match parseExp r3 with
      | some e => some ⟨neg, digitsVal (runDigits ip ++ runDigits fp), (runDigits fp).length, e⟩
      | none => none
  | _ =>
    if !digitRunOk ip then none
    else
      match parseExp r1 with
      | some e => some ⟨neg, digitsVal (runDigits ip), 0, e⟩
      | none => none

/-- Line 10-14 of `util.py`:

    def convert_timestamp(fields, name):
        tmp = fields[name]
        if tmp:
            dt = datetime.datetime.fromtimestamp(float(tmp))
            fields[name] = dt.strftime("%Y-%m-%dT%H:%M:%S")

`fromtimestamp` + `strftime` render the parsed epoch value in the process's
local timezone, so the rendering is a parameter `fmt` (any function of the
parsed value).  Absent key: `KeyError`; falsy value: no-op; malformed float
text: `ValueError`; a non-falsy integer value converts exactly. -/
def convert_timestamp (fmt : PFloat → String) (fields : Row) (name : String) :
    Except PyError Row :=
  match List.lookup name fields with
  | none => .error .keyError
  | some tmp =>
    if isTruthy tmp then
      match tmp with
      | .str s =>
        match parseFloat s with
        | some p => .ok (updateA fields name (.str (fmt p)))
        | none => .error .valueError
      | .int n => .ok (updateA fields name (.str (fmt ⟨decide (n < 0), n.natAbs, 0, 0⟩)))
      | .null => .error .typeError
    else .ok fields

-- sanity checks against CPython float()
example : parseFloat "200.0" = some ⟨false, 2000, 1, 0⟩ := by decide
example : parseFloat "1e3" = some ⟨false, 1, 0, 3⟩ := by decide
example : parseFloat "-2.5e-1" = some ⟨true, 25, 1, -1⟩ := by decide
example : parseFloat "1_0.5" = some ⟨false, 105, 1, 0⟩ := by decide
example : parseFloat ".5" = some ⟨false, 5, 1, 0⟩ := by decide
example : parseFloat "5." = some ⟨false, 5, 0, 0⟩ := by decide
example : parseFloat " 42 " = some ⟨false, 42, 0, 0⟩ := by decide
example : parseFloat "abc" = none := by decide
example : parseFloat "" = none := by decide
example : parseFloat "1._5" = none := by decide
example : parseFloat "1.0.0" = none := by decide

/-- Entry-level output columns of `process-trace.py` (lines 28-40). -/
def entryNames : List String :=
  ["entry", "timestamp", "datetime", "function", "dropped", "pdf", "cs",
   "domain", "route", "adapter", "adapter_type"]

/-- Field-level output columns of `process-trace.py` (lines 43-49). -/
def fieldNames : List String :=
  ["entry", "offset", "data_offset", "value", "name"]

/-- The dict comprehension `{key: row[key] for key in names if key in row}`:
projection of a row onto the named keys that are present, in `names` order. -/
def projRow (names : List String) (row : Row) : Row :=
  names.filterMap (fun k => (List.lookup k row).map (fun v => (k, v)))

/-- The body of `write_row` for one buffered element (lines 10-17): project to
the field columns, hex-convert `offset`, `data_offset`, `value`, then write. -/
def writeRowOne (fnames : List String) (field : Row) : Except PyError (List String) :=
  match convert_int (projRow fnames field) "offset" with
  | .error e => .error e
  | .ok f1 =>
    match convert_int f1 "data_offset" with
    | .error e => .error e
    | .ok f2 =>
      match convert_int f2 "value" with
      | .error e => .error e
      | .ok f3 => writeRowDict fnames f3

/-- The `for field in fields` loop of `write_row`: writes until the first
exception, which keeps the lines already written. -/
def writeRows (fnames : List String) : List Row → List (List String) × Option PyError
  | [] => ([], none)
  | r :: rest =>
    match writeRowOne fnames r with
    | .error e => ([], some e)
    | .ok cells => (cells :: (writeRows fnames rest).1, (writeRows fnames rest).2)

/-- The dynamically-typed `fields` variable of `process_trace`: it holds the
fields-output *file name string* from line 22 until the first data row, and a
buffered row list afterwards. -/
inductive FieldsVar
  | fname (s : String)
  | rows (l : List Row)

/-- Python's `in` on strings: contiguous substring containment. -/
def substrB (needle hay : List Char) : Bool :=
  hay.tails.any (fun t => needle.isPrefixOf t)

/-- One character of the file-name string, viewed as `write_row` views it:
the `key in field` test is substring containment in the 1-character string,
so the projection keeps the keys that are substrings of it.  (For the actual
column names — all longer than one character — none is, so the result is
empty; the `field[key]` value position, which would raise `TypeError` on a
string, is therefore unreachable and an arbitrary cell is used.) -/
def charRow (fnames : List String) (c : Char) : Row :=
  (fnames.filter (fun k => substrB k.data [c])).map
    (fun k => (k, CellVal.str (String.mk [c])))

/-- Iterating the `fields` variable: a row list iterates its rows; a string
iterates its characters. -/
def fieldsIter (fnames : List String) : FieldsVar → List Row
  | .rows l => l
  | .fname s => s.data.map (charRow fnames)

/-- The `write_row(fields, writer, field_names)` call. -/
def write_row (fv : FieldsVar) (fnames : List String) :
    List (List String) × Option PyError :=
  writeRows fnames (fieldsIter fnames fv)

/-- The entry-record block at a run boundary (lines 62-66): project the row
onto the entry columns, convert `datetime` (note: the `datetime` field, not
`timestamp`), hex-convert `route`, and write. -/
def entryRecord (fmt : PFloat → String) (row : Row) : Except PyError (List String) :=
  match convert_timestamp fmt (projRow entryNames row) "datetime" with
  | .error e => .error e
  | .ok e1 =>
    match convert_int e1 "route" with
    | .error e => .error e
    | .ok e2 => writeRowDict entryNames e2

/-- The `row['entry']` accesses in the loop: `KeyError` when absent. -/
def rowEntry (row : Row) : Except PyError CellVal :=
  match List.lookup "entry" row with
  | some v => .ok v
  | none => .error .keyError

/-- The `fields.append(row)` call.  It only happens after `fields` was set to
a row list (`line` is truthy only then), so the string case is unreachable
(Python would raise `AttributeError` there). -/
def FieldsVar.push (fv : FieldsVar) (row : Row) : FieldsVar :=
  match fv with
  | .rows l => .rows (l ++ [row])
  | .fname s => .fname s

/-- The main `for row in reader` loop of `process_trace` (lines 51-71) plus
the final `write_row` flush (line 74), returning the entry lines, the field
lines, and the uncaught exception if any.  `line` is the variable of the same
name (initially `None`, modelled as `CellVal.null`; note `if not line` is a
truthiness test, so an empty-string entry id also restarts the buffer). -/
def traceRun (fmt : PFloat → String) :
    CellVal → FieldsVar → List Row → List (List String) × List (List String) × Option PyError
  | _, fv, [] =>
    ([], (write_row fv fieldNames).1, (write_row fv fieldNames).2)
  | line, fv, row :: rest =>
    match rowEntry row with
    | .error e => ([], [], some e)
    | .ok ev =>
      if isTruthy line then
        if line ≠ ev then
          match entryRecord fmt row with
          | .error e => ([], [], some e)
          | .ok ecells =>
            match (write_row fv fieldNames).2 with
            | some e => ([ecells], (write_row fv fieldNames).1, some e)
            | none =>
              (ecells :: (traceRun fmt ev (.rows [row]) rest).1,
               (write_row fv fieldNames).1 ++ (traceRun fmt ev (.rows [row]) rest).2.1,
               (traceRun fmt ev (.rows [row]) rest).2.2)
        else traceRun fmt line (fv.push row) rest
      else traceRun fmt ev (.rows [row]) rest

/-- Whole-file behaviour of `process_trace` on the parsed input rows (`base`
is the input file's basename after `splitext`): the lines of the two output
CSVs, headers first, plus the uncaught exception if the run aborted. -/
def process_trace (fmt : PFloat → String) (base : String) (rows : List Row) :
    List (List String) × List (List String) × Option PyError :=
  (entryNames :: (traceRun fmt .null (.fname (base ++ ".processed.fields.csv")) rows).1,
   fieldNames :: (traceRun fmt .null (.fname (base ++ ".processed.fields.csv")) rows).2.1,
   (traceRun fmt .null (.fname (base ++ ".processed.fields.csv")) rows).2.2)

-- sanity check: zero data rows leave the file-name string in `fields`, whose
-- first character projects to an empty dict, and convert_int raises KeyError
example :
    process_trace (fun _ => "X") "t" [] = ([entryNames], [fieldNames], some .keyError) := by
  decide

theorem substrB_long (a b : Char) (l : List Char) (c : Char) :
    substrB (a :: b :: l) [c] = false := by
  simp [substrB, List.tails, List.isPrefixOf]

theorem charRow_fieldNames (c : Char) : charRow fieldNames c = [] := by
  have he : "entry".data = 'e' :: 'n' :: ['t', 'r', 'y'] := by decide
  have ho : "offset".data = 'o' :: 'f' :: ['f', 's', 'e', 't'] := by decide
  have hd : "data_offset".data =
      'd' :: 'a' :: ['t', 'a', '_', 'o', 'f', 'f', 's', 'e', 't'] := by decide
  have hv : "value".data = 'v' :: 'a' :: ['l', 'u', 'e'] := by decide
  have hn : "name".data = 'n' :: 'a' :: ['m', 'e'] := by decide
  simp [charRow, fieldNames, List.filter, he, ho, hd, hv, hn, substrB_long]

theorem write_row_fname (s : String) (c : Char) (cs : List Char) (h : s.data = c :: cs) :
    write_row (.fname s) fieldNames = ([], some .keyError) := by
  have h1 : writeRowOne fieldNames (charRow fieldNames c) = .error .keyError := by
    rw [charRow_fieldNames]
    decide
  simp [write_row, fieldsIter, h, writeRows, h1]

/-- C10: on an input CSV with a header but zero data rows, `process_trace`
writes the two headers but then flushes the `fields` variable while it still
holds the fields-output file-name string: iterating its characters, the first
character projects to an empty dict and `convert_int(f, 'offset')` raises
`KeyError` — the run does not terminate normally. -/
theorem process_trace_empty_input (fmt : PFloat → String) (base : String) :
    process_trace fmt base [] = ([entryNames], [fieldNames], some PyError.keyError) := by
  cases hc : (base ++ ".processed.fields.csv").data with
  | nil =>
    exfalso
    have hlen := congrArg List.length hc
    rw [String.data_append, List.length_append] at hlen
    have h21 : (".processed.fields.csv" : String).data.length = 21 := by decide
    rw [h21] at hlen
    simp at hlen
  | cons c cs =>
    have hw := write_row_fname (base ++ ".processed.fields.csv") c cs hc
    simp [process_trace, traceRun, hw]

/-- The three-row input of the C4 run-boundary analysis: two rows of entry
`1`, then one row of entry `2`. -/
def runRow1 : Row :=
  [("entry", .str "1"), ("offset", .str "10"), ("data_offset", .str "0"),
   ("value", .str "ff"), ("name", .str "a")]

/-- Second buffered row of the first run. -/
def runRow2 : Row :=
  [("entry", .str "1"), ("offset", .str "14"), ("data_offset", .str "4"),
   ("value", .str "1"), ("name", .str "b")]

/-- First (and only) row of the second run. -/
def runRow3 : Row :=
  [("entry", .str "2"), ("timestamp", .str "2.0"), ("datetime", .str ""),
   ("function", .str "f2"), ("dropped", .str "0"), ("pdf", .str ""), ("cs", .str ""),
   ("domain", .str "0"), ("route", .str ""), ("adapter", .str "3"),
   ("adapter_type", .str "u"), ("offset", .str "0"), ("data_offset", .str "0"),
   ("value", .str "0"), ("name", .str "c")]

/-- C4: on two contiguous runs (entries `1`, `2`) the program writes exactly
ONE entry-record, not one per run: at the boundary, `e` is projected from
`row` — the first row of the NEW run — so the first run never gets an
entry-record, while all three field-records are written.  (The `datetime` and
`route` cells of the boundary row are empty here, so the conversions are
no-ops and the result is independent of `fmt`; the file-name string in
`fields` is overwritten by the first row, so it is independent of `base`.) -/
theorem process_trace_first_run_entry (fmt : PFloat → String) (base : String) :
    process_trace fmt base [runRow1, runRow2, runRow3] =
      ([entryNames, ["2", "2.0", "", "f2", "0", "", "", "0", "", "3", "u"]],
       [fieldNames, ["1", "16", "0", "255", "a"], ["1", "20", "4", "1", "b"],
        ["2", "0", "0", "0", "c"]],
       none) := rfl

theorem lookup_projRow (k : String) (names : List String) (row : Row) :
    List.lookup k (projRow names row) =
      if k ∈ names then List.lookup k row else none := by
  induction names with
  | nil => simp [projRow]
  | cons n ns ih =>
    cases hv : List.lookup n row with
    | none =>
      have hc : projRow (n :: ns) row = projRow ns row := by
        simp [projRow, hv]
      rw [hc, ih]
      by_cases hk : k = n
      · subst hk
        by_cases hm : k ∈ ns <;> simp [hm, hv]
      · simp [List.mem_cons, hk]
    | some v =>
      have hc : projRow (n :: ns) row = (n, v) :: projRow ns row := by
        simp [projRow, hv]
      rw [hc]
      by_cases hk : k = n
      · subst hk
        simp [List.lookup, hv]
      · have hbeq : (k == n) = false := beq_eq_false_iff_ne.mpr hk
        simp only [List.lookup, hbeq]
        rw [ih]
        simp [List.mem_cons, hk]

theorem lookup_updateA_self (r : Row) (k : String) (v : CellVal) :
    List.lookup k (updateA r k v) = (List.lookup k r).map (fun _ => v) := by
  induction r with
  | nil => rfl
  | cons p r' ih =>
    obtain ⟨q, w⟩ := p
    by_cases hq : q = k
    · subst hq
      have hu : updateA ((q, w) :: r') q v = (q, v) :: updateA r' q v := by
        simp [updateA]
      rw [hu]
      simp [List.lookup]
    · have hu : updateA ((q, w) :: r') k v = (q, w) :: updateA r' k v := by
        simp [updateA, hq]
      rw [hu]
      have hbeq : (k == q) = false := beq_eq_false_iff_ne.mpr (Ne.symm hq)
      simp only [List.lookup, hbeq]
      exact ih

theorem lookup_updateA_ne (r : Row) (name k : String) (v : CellVal) (h : k ≠ name) :
    List.lookup k (updateA r name v) = List.lookup k r := by
  induction r with
  | nil => rfl
  | cons p r' ih =>
    obtain ⟨q, w⟩ := p
    by_cases hq : q = name
    · subst hq
      have hu : updateA ((q, w) :: r') q v = (q, v) :: updateA r' q v := by
        simp [updateA]
      rw [hu]
      have hbeq : (k == q) = false := beq_eq_false_iff_ne.mpr h
      simp only [List.lookup, hbeq]
      exact ih
    · have hu : updateA ((q, w) :: r') name v = (q, w) :: updateA r' name v := by
        simp [updateA, hq]
      rw [hu]
      by_cases hkq : k = q
      · subst hkq
        simp [List.lookup]
      · have hbeq : (k == q) = false := beq_eq_false_iff_ne.mpr hkq
        simp only [List.lookup, hbeq]
        exact ih

theorem convert_int_lookup (r r' : Row) (name k : String) (hne : k ≠ name)
    (h : convert_int r name = .ok r') : List.lookup k r' = List.lookup k r := by
  cases hv : List.lookup name r with
  | none => simp [convert_int, hv] at h
  | some tmp =>
    cases htr : isTruthy tmp with
    | false =>
      simp only [convert_int, hv, htr, Bool.false_eq_true, if_false,
        Except.ok.injEq] at h
      subst h
      rfl
    | true =>
      cases tmp with
      | null => simp [isTruthy] at htr
      | int n => simp [convert_int, hv, htr] at h
      | str s =>
        cases hx : pyIntHex s with
        | none => simp [convert_int, hv, htr, hx] at h
        | some n =>
          simp only [convert_int, hv, htr, if_true, hx, Except.ok.injEq] at h
          subst h
          exact lookup_updateA_ne r name k _ hne

/-- C5 (amended): every entry-record cell `datetime` equals the rendering
(the epoch-to-local-ISO-8601 function, abstracted as `fmt`) of the parsed
float of the row's own `datetime` field — not of its `timestamp` field, which
is never consulted by the conversion. -/
theorem entryRecord_datetime (fmt : PFloat → String) (row : Row) (dt : String) (p : PFloat)
    (cells : List String) (hdt : List.lookup "datetime" row = some (.str dt))
    (hne : dt ≠ "") (hp : parseFloat dt = some p)
    (hok : entryRecord fmt row = .ok cells) :
    cells[2]? = some (fmt p) := by
  have hmem : "datetime" ∈ entryNames := by decide
  have hl : List.lookup "datetime" (projRow entryNames row) = some (.str dt) := by
    rw [lookup_projRow, if_pos hmem, hdt]
  have htr : isTruthy (.str dt) = true := by
    cases hie : dt.isEmpty with
    | true => exact absurd ((String.isEmpty_iff dt).mp hie) hne
    | false => simp [isTruthy, hie]
  have hct : convert_timestamp fmt (projRow entryNames row) "datetime" =
      .ok (updateA (projRow entryNames row) "datetime" (.str (fmt p))) := by
    simp [convert_timestamp, hl, htr, hp]
  simp only [entryRecord, hct] at hok
  cases hroute :
      convert_int (updateA (projRow entryNames row) "datetime" (.str (fmt p))) "route" with
  | error e => simp [hroute] at hok
  | ok e2 =>
    simp only [hroute] at hok
    have hdt2 : List.lookup "datetime" e2 = some (.str (fmt p)) := by
      rw [convert_int_lookup _ _ _ _ (by decide) hroute, lookup_updateA_self, hl]
      rfl
    unfold writeRowDict at hok
    by_cases hall : e2.all (fun q => entryNames.contains q.1) = true
    · rw [if_pos hall] at hok
      simp only [Except.ok.injEq] at hok
      subst hok
      rw [List.getElem?_map]
      have h2 : entryNames[2]? = some "datetime" := by decide
      rw [h2]
      simp [hdt2, cellStr]
    · rw [if_neg hall] at hok
      exact absurd hok (by simp)

/-- Concrete rendering function used in the C5 instances. -/
def renderStub : PFloat → String := fun p => if p.mant = 2000 then "TS200" else "OTHER"

/-- First-run filler row for the C5 counterexample input. -/
def trFillerRow : Row :=
  [("entry", .str "1"), ("offset", .str "0"), ("data_offset", .str "0"),
   ("value", .str "0"), ("name", .str "x")]

/-- Boundary row with distinct `timestamp` (`100.0`) and `datetime` (`200.0`)
numeric fields. -/
def trDatetimeRow : Row :=
  [("entry", .str "2"), ("timestamp", .str "100.0"), ("datetime", .str "200.0"),
   ("function", .str "g"), ("dropped", .str ""), ("pdf", .str ""), ("cs", .str ""),
   ("domain", .str "0"), ("route", .str ""), ("adapter", .str "1"),
   ("adapter_type", .str "t"), ("offset", .str "0"), ("data_offset", .str "0"),
   ("value", .str "0"), ("name", .str "y")]

/-- Witness for C5 (amended) at the concrete boundary row. -/
theorem entryRecord_datetime_witness :
    (["2", "100.0", "TS200", "g", "", "", "", "0", "", "1", "t"] : List String)[2]? =
      some (renderStub ⟨false, 2000, 1, 0⟩) :=
  entryRecord_datetime renderStub trDatetimeRow "200.0" ⟨false, 2000, 1, 0⟩
    ["2", "100.0", "TS200", "g", "", "", "", "0", "", "1", "t"]
    (by decide) (by decide) (by decide) (by decide)

/-- C5 counterexample: with a rendering that distinguishes the two values,
the written `datetime` cell is the rendering of `float("200.0")` — the row's
`datetime` field — while the rendering of `float("100.0")` (its `timestamp`
field, as the claim would have it) is the different string `OTHER`. -/
theorem process_trace_datetime_cex :
    (process_trace renderStub "t" [trFillerRow, trDatetimeRow]).1 =
        [entryNames, ["2", "100.0", "TS200", "g", "", "", "", "0", "", "1", "t"]] ∧
      parseFloat "200.0" = some ⟨false, 2000, 1, 0⟩ ∧
      parseFloat "100.0" = some ⟨false, 1000, 1, 0⟩ ∧
      renderStub ⟨false, 2000, 1, 0⟩ = "TS200" ∧
      renderStub ⟨false, 1000, 1, 0⟩ = "OTHER" := by decide

end Tbtools
